import Mathlib

/-!
Verification of the FANTOIR fixed-width record decoder and backtracking
record classifier (fantoir.py) against its natural-language specification.

Modelling conventions:
* A byte string (`bytes` in the source) is a `List Nat`, one entry per byte.
* Decoded text is kept as its UTF-8 byte sequence.  `rstrip` removes the
  trailing one-byte whitespace characters stripped by Python `str.rstrip()`
  (Python would additionally strip a handful of multi-byte Unicode
  whitespace characters such as NBSP; no claim depends on those).
* Exceptions escaping `decode` (a `UnicodeDecodeError` from `value.decode()`,
  or the `assert False` in the empty-value guard) are the `fatalError`
  outcome; returning `None` is `noMatch`; returning the row dict is
  `matched`.
-/

namespace Fantoir

/-- Python slice `line[offset : offset + width]` on a byte string (slicing
clamps at the end of the string, so the result may be shorter than
`width`). -/
def pySlice (line : List Nat) (offset width : Nat) : List Nat :=
  (line.drop offset).take width

/-- The one-byte whitespace characters removed by Python `str.rstrip()`
(code points 0x09-0x0D, 0x1C-0x1F and 0x20). -/
def isPySpace (b : Nat) : Bool :=
  b == 9 || b == 10 || b == 11 || b == 12 || b == 13 ||
  b == 28 || b == 29 || b == 30 || b == 31 || b == 32

/-- Python `str.rstrip(text)`: drop trailing whitespace. -/
def rstrip (l : List Nat) : List Nat :=
  (l.reverse.dropWhile isPySpace).reverse

/-- A UTF-8 continuation byte (0x80-0xBF). -/
def isCont (b : Nat) : Bool :=
  decide (0x80 ≤ b ∧ b ≤ 0xBF)

/-- Allowed range of the first continuation byte of a three-byte sequence
(excludes overlong encodings and surrogates, as CPython's strict UTF-8
decoder does). -/
def cont1Of3 (b c : Nat) : Bool :=
  if b = 0xE0 then decide (0xA0 ≤ c ∧ c ≤ 0xBF)
  else if b = 0xED then decide (0x80 ≤ c ∧ c ≤ 0x9F)
  else isCont c

/-- Allowed range of the first continuation byte of a four-byte sequence. -/
def cont1Of4 (b c : Nat) : Bool :=
  if b = 0xF0 then decide (0x90 ≤ c ∧ c ≤ 0xBF)
  else if b = 0xF4 then decide (0x80 ≤ c ∧ c ≤ 0x8F)
  else isCont c

/-- Whether a byte string is valid (strict) UTF-8, i.e. whether Python's
`bytes.decode()` succeeds on it. -/
def utf8Valid : List Nat → Bool
  | [] => true
  | b :: t =>
    if b < 0x80 then utf8Valid t
    else if b < 0xC2 then false
    else if b < 0xE0 then
      match t with
      | c1 :: t1 => isCont c1 && utf8Valid t1
      | [] => false
    else if b < 0xF0 then
      match t with
      | c1 :: c2 :: t2 => cont1Of3 b c1 && isCont c2 && utf8Valid t2
      | _ => false
    else if b < 0xF5 then
      match t with
      | c1 :: c2 :: c3 :: t3 => cont1Of4 b c1 && isCont c2 && isCont c3 && utf8Valid t3
      | _ => false
    else false

/-- Python 3 equality between a `bytes` value and a `str` value: always
`False`, whatever the operands (the interpreter never equates values of
the two types).  The guard `if value == '':` in the source's `decode`
compares the bytes slice `value` with the `str` literal `''`, so the
guard never fires. -/
def bytesEqStr (_value : List Nat) (_s : String) : Bool := false

/-- One entry of a layout description: `[width, name]` (the source keeps
optional documentation strings after the name; only `field[:2]` is ever
used, so they are dropped here). -/
structure FieldSpec where
  width : Nat
  name : String
deriving Repr, DecidableEq

/-- One record layout: its table name followed by its field entries
(the source represents this as a heterogeneous list whose head is the
name). -/
structure Layout where
  name : String
  fields : List FieldSpec
deriving Repr, DecidableEq

def FILLER : String := "_ "
def FILLER_NULL : String := "_\x00"
def FILLER_ANY : String := "_*"
def FILLER_0 : String := "_0"
def FILLER_9 : String := "_9"

/-- Python `name.startswith('_')`: whether a field entry is a filler. -/
def isFillerName (n : String) : Bool :=
  match n.data with
  | [] => false
  | c :: _ => decide (c = '_')

/-- Python `name[1].encode() * width`: the filler byte (the code point of
the sentinel's second character; every sentinel uses a one-byte
character) repeated `width` times. -/
def fillerPattern (n : String) (width : Nat) : List Nat :=
  List.replicate width (n.data.getD 1 ' ').toNat

def enregistrement_initial : Layout :=
  ⟨"initial",
   [⟨10, FILLER_NULL⟩,
    ⟨1, FILLER⟩,
    ⟨25, "lbl_prod"⟩,
    ⟨8, "date_situ"⟩,
    ⟨7, "date_prod"⟩]⟩

def enregistrement_direction : Layout :=
  ⟨"direction",
   [⟨2, "code_dpt"⟩,
    ⟨1, "code_dir"⟩,
    ⟨8, FILLER⟩,
    ⟨30, "libelle_dir"⟩]⟩

def enregistrement_commune : Layout :=
  ⟨"commune",
   [⟨2, "code_dpt"⟩,
    ⟨1, "code_dir"⟩,
    ⟨3, "code_comm"⟩,
    ⟨4, FILLER⟩,
    ⟨1, "cle_rivoli"⟩,
    ⟨30, "libelle_comm"⟩,
    ⟨1, FILLER⟩,
    ⟨1, "type_comm"⟩,
    ⟨2, FILLER⟩,
    ⟨1, "caract_rur"⟩,
    ⟨3, FILLER⟩,
    ⟨1, "caract_popul"⟩,
    ⟨2, FILLER⟩,
    ⟨7, "popul_reel"⟩,
    ⟨7, "popul_apart"⟩,
    ⟨7, "popul_fict"⟩,
    ⟨1, "caract_annul"⟩,
    ⟨7, "date_annul"⟩,
    ⟨7, "date_crea"⟩]⟩

def enregistrement_voie : Layout :=
  ⟨"voie",
   [⟨2, "code_dpt"⟩,
    ⟨1, "code_dir"⟩,
    ⟨3, "code_comm"⟩,
    ⟨4, "ident_voie"⟩,
    ⟨1, "cle_rivoli"⟩,
    ⟨4, "code_nature"⟩,
    ⟨26, "libelle_voie"⟩,
    ⟨1, FILLER⟩,
    ⟨1, "type_comm"⟩,
    ⟨2, FILLER⟩,
    ⟨1, "caract_rur"⟩,
    ⟨2, FILLER⟩,
    ⟨1, "caract_voie"⟩,
    ⟨1, "caract_popul"⟩,
    ⟨9, FILLER⟩,
    ⟨7, "popul_apart"⟩,
    ⟨7, "popul_fict"⟩,
    ⟨1, "caract_annul"⟩,
    ⟨7, "date_annul"⟩,
    ⟨7, "date_crea"⟩,
    ⟨15, FILLER⟩,
    ⟨5, "code_majic"⟩,
    ⟨1, "type_voie"⟩,
    ⟨1, "caract_lieudit"⟩,
    ⟨2, FILLER⟩,
    ⟨30, "dernier_mot"⟩]⟩

def enregistrement_final : Layout :=
  ⟨"final",
   [⟨10, FILLER_9⟩,
    ⟨1, FILLER⟩,
    ⟨21, "inconnu"⟩,
    ⟨118, FILLER_0⟩]⟩

/-- A decoded record: the dict of named-field values built by `decode`
(in insertion order), together with the synthetic `trailing` entry
`line[offset:]` that `decode` always adds at the end. -/
structure Row where
  fields : List (String × List Nat)
  trailing : List Nat
deriving Repr, DecidableEq

/-- Python dict assignment `row[name] = v`: overwrite in place if the key
exists, append otherwise. -/
def dictInsert (row : List (String × List Nat)) (k : String) (v : List Nat) :
    List (String × List Nat) :=
  if row.any (fun p => decide (p.1 = k)) then
    row.map (fun p => if p.1 = k then (k, v) else p)
  else row ++ [(k, v)]

/-- Python dict lookup `row[name]` (as an `Option`; `none` would raise
`KeyError`). -/
def rowGet (r : Row) (k : String) : Option (List Nat) :=
  (r.fields.find? (fun p => decide (p.1 = k))).map Prod.snd

/-- The three possible outcomes of `decode`: an uncaught exception, the
implicit `return None` on a filler mismatch, or a decoded row. -/
inductive Decoded where
  | fatalError
  | noMatch
  | matched (r : Row)
deriving Repr, DecidableEq

/-- The field-by-field walk of `decode` (the `for field in fields[1:]`
loop), carrying the running `offset` and the row built so far. -/
def decodeFields : List FieldSpec → List Nat → Nat → List (String × List Nat) → Decoded
  | [], line, offset, row => .matched ⟨row, line.drop offset⟩
  | f :: rest, line, offset, row =>
    if f.name = FILLER_ANY then
      decodeFields rest line (offset + f.width) row
    else if isFillerName f.name then
      if pySlice line offset f.width = fillerPattern f.name f.width then
        decodeFields rest line (offset + f.width) row
      else .noMatch
    else
      if bytesEqStr (pySlice line offset f.width) "" then .fatalError
      else if utf8Valid (pySlice line offset f.width) then
        decodeFields rest line (offset + f.width)
          (dictInsert row f.name (rstrip (pySlice line offset f.width)))
      else .fatalError

/-- `decode(fields, line)` from the source: analyse one line against one
layout description. -/
def decode (L : Layout) (line : List Nat) : Decoded :=
  decodeFields L.fields line 0 []

/-- The ordered list of layouts set up in `main` (the trailer layout is the
FIRST element; the street layout is the last). -/
def enregistrements : List Layout :=
  [enregistrement_final,
   enregistrement_initial,
   enregistrement_direction,
   enregistrement_commune,
   enregistrement_voie]

/-- `enregistrements[i]` for the classifier cursor, which lives on `Int` to
mirror the Python variable.  Out-of-range cursors yield `none` (for a
cursor in `-5 ≤ i < 0` CPython would wrap around and silently reuse a
layout from the end of the list; the classifier invariant proved below
shows the cursor never leaves `0..4`, so the wrap-around is never
exercised and is not modelled). -/
def layoutAt (i : Int) : Option Layout :=
  if 0 ≤ i then enregistrements.get? i.toNat else none

/-- Result of running the per-line `while True:` loop of `main` on one
line.  `emit k r n` means the row `r` was accepted with the layout named
`k` and the cursor is `n` afterwards; the `fatal` outcomes are the
uncaught exceptions the loop can raise (none of them carries the line
number or the line bytes, matching the bare `assert` statements of the
source); `outOfFuel` is an artifact of the bounded unfolding and is never
reached with fuel `> i`. -/
inductive Outcome where
  | emit (kind : String) (r : Row) (next : Int)
  | fatalDecode
  | fatalExhausted
  | fatalIndex
  | fatalKey
  | fatalTerm
  | outOfFuel
deriving Repr, DecidableEq

/-- One line of the classifier: the `while True:` loop body of `main`,
started at cursor `i`.  Each iteration either accepts the line (then the
cursor advances by one unless it is already at the last index,
`len(enregistrements) - 1 = 4`), or backtracks to `i - 1` (the commune
disambiguation `if row['code_comm'] == '': i -= 1; continue`, and the
`assert i > 0; i -= 1` on a structural mismatch, which is `fatalExhausted`
when `i = 0`). -/
def classify : Nat → Int → List Nat → Outcome
  | 0, _, _ => .outOfFuel
  | fuel + 1, i, line =>
    match layoutAt i with
    | Option.none => .fatalIndex
    | Option.some L =>
      match decode L line with
      | .fatalError => .fatalDecode
      | .noMatch => if 0 < i then classify fuel (i - 1) line else .fatalExhausted
      | .matched r =>
        if L.name = "commune" then
          match rowGet r "code_comm" with
          | Option.none => .fatalKey
          | Option.some v =>
            if v = [] then classify fuel (i - 1) line
            else .emit L.name r (if i < 4 then i + 1 else i)
        else .emit L.name r (if i < 4 then i + 1 else i)

/-- The two-byte line terminator `b'\r\n'`. -/
def CRLF : List Nat := [13, 10]

/-- Processing of one raw line by `main`: `assert line[-2:] == b'\r\n'`
(an `AssertionError` halts everything before any layout is tried),
then `line = line[:-2]` and the classifier loop.  Fuel 5 suffices for
any cursor in `0..4` since every loop iteration decreases the cursor. -/
def processLine (i : Int) (line : List Nat) : Outcome :=
  if line.drop (line.length - 2) = CRLF then
    classify 5 i (line.take (line.length - 2))
  else .fatalTerm

/-! ### Derived notions used to state the claims -/

/-- Sum of the declared field widths of a layout (the number of bytes the
layout describes). -/
def sumWidths : List FieldSpec → Nat
  | [] => 0
  | f :: rest => f.width + sumWidths rest

/-- Whether some filler slot of the layout (a `Space`/`Zero`/`Nine`/`Null`
slot, i.e. an underscore-named slot other than the wildcard `_*`)
deviates from its literal pattern on this line, walking the fields at
their declared offsets exactly as `decode` does. -/
def fillerDeviatesAux : List FieldSpec → List Nat → Nat → Bool
  | [], _, _ => false
  | f :: rest, line, offset =>
    if f.name = FILLER_ANY then fillerDeviatesAux rest line (offset + f.width)
    else if isFillerName f.name then
      if pySlice line offset f.width = fillerPattern f.name f.width then
        fillerDeviatesAux rest line (offset + f.width)
      else true
    else fillerDeviatesAux rest line (offset + f.width)

def fillerDeviates (L : Layout) (line : List Nat) : Bool :=
  fillerDeviatesAux L.fields line 0

/-- Whether every filler slot of the layout matches its literal pattern on
this line. -/
def fillersMatchAux : List FieldSpec → List Nat → Nat → Bool
  | [], _, _ => true
  | f :: rest, line, offset =>
    if f.name = FILLER_ANY then fillersMatchAux rest line (offset + f.width)
    else if isFillerName f.name then
      decide (pySlice line offset f.width = fillerPattern f.name f.width) &&
        fillersMatchAux rest line (offset + f.width)
    else fillersMatchAux rest line (offset + f.width)

def fillersMatch (L : Layout) (line : List Nat) : Bool :=
  fillersMatchAux L.fields line 0

/-- Whether every named slot's byte slice is valid UTF-8 on this line
(i.e. `value.decode()` succeeds for every named field). -/
def namedValidAux : List FieldSpec → List Nat → Nat → Bool
  | [], _, _ => true
  | f :: rest, line, offset =>
    if isFillerName f.name then namedValidAux rest line (offset + f.width)
    else utf8Valid (pySlice line offset f.width) && namedValidAux rest line (offset + f.width)

def namedSlicesValid (L : Layout) (line : List Nat) : Bool :=
  namedValidAux L.fields line 0

/-- The semantic names of the named (non-filler) fields of a layout, in
declaration order. -/
def namedNames : List FieldSpec → List String
  | [] => []
  | f :: rest =>
    if isFillerName f.name then namedNames rest
    else f.name :: namedNames rest

/-- The association list a successful `decode` produces: each named field
paired with its right-trimmed byte slice, in declaration order. -/
def namedList : List FieldSpec → List Nat → Nat → List (String × List Nat)
  | [], _, _ => []
  | f :: rest, line, offset =>
    if isFillerName f.name then namedList rest line (offset + f.width)
    else (f.name, rstrip (pySlice line offset f.width)) :: namedList rest line (offset + f.width)

/-- The row dict built by `decode`'s walk, starting from `row` (mirrors the
`row[name] = ...` updates of `decodeFields`). -/
def namedAcc : List FieldSpec → List Nat → Nat → List (String × List Nat) →
    List (String × List Nat)
  | [], _, _, row => row
  | f :: rest, line, offset, row =>
    if isFillerName f.name then namedAcc rest line (offset + f.width) row
    else namedAcc rest line (offset + f.width)
      (dictInsert row f.name (rstrip (pySlice line offset f.width)))

/-- Index of a layout kind in `enregistrements` (the kinds are pairwise
distinct, so the emitted kind determines the index the line was accepted
at). -/
def kindIdx (k : String) : Int :=
  if k = "final" then 0
  else if k = "initial" then 1
  else if k = "direction" then 2
  else if k = "commune" then 3
  else 4

/-! ### Helper lemmas about `decode` -/

lemma isFillerName_wildcard : isFillerName FILLER_ANY = true := rfl

lemma decodeFields_not_matched :
    ∀ (fields : List FieldSpec) (line : List Nat) (offset : Nat)
      (row : List (String × List Nat)) (r : Row),
      fillerDeviatesAux fields line offset = true →
      decodeFields fields line offset row ≠ .matched r := by
  intro fields
  induction fields with
  | nil =>
    intro line offset row r h
    simp [fillerDeviatesAux] at h
  | cons f rest ih =>
    intro line offset row r h
    rw [fillerDeviatesAux] at h
    rw [decodeFields]
    by_cases hw : f.name = FILLER_ANY
    · rw [if_pos hw] at h ⊢
      exact ih _ _ _ _ h
    · rw [if_neg hw] at h ⊢
      by_cases hf : isFillerName f.name = true
      · rw [if_pos hf] at h ⊢
        by_cases hp : pySlice line offset f.width = fillerPattern f.name f.width
        · rw [if_pos hp] at h ⊢
          exact ih _ _ _ _ h
        · rw [if_neg hp]
          simp
      · rw [if_neg hf] at h ⊢
        simp only [bytesEqStr, Bool.false_eq_true, if_false]
        by_cases hv : utf8Valid (pySlice line offset f.width) = true
        · rw [if_pos hv]
          exact ih _ _ _ _ h
        · rw [if_neg hv]
          simp

lemma decodeFields_noMatch :
    ∀ (fields : List FieldSpec) (line : List Nat) (offset : Nat)
      (row : List (String × List Nat)),
      fillerDeviatesAux fields line offset = true →
      namedValidAux fields line offset = true →
      decodeFields fields line offset row = .noMatch := by
  intro fields
  induction fields with
  | nil =>
    intro line offset row h _
    simp [fillerDeviatesAux] at h
  | cons f rest ih =>
    intro line offset row h hv
    rw [fillerDeviatesAux] at h
    rw [namedValidAux] at hv
    rw [decodeFields]
    by_cases hw : f.name = FILLER_ANY
    · rw [if_pos hw] at h ⊢
      rw [if_pos (hw ▸ isFillerName_wildcard)] at hv
      exact ih _ _ _ h hv
    · rw [if_neg hw] at h ⊢
      by_cases hf : isFillerName f.name = true
      · rw [if_pos hf] at h ⊢
        rw [if_pos hf] at hv
        by_cases hp : pySlice line offset f.width = fillerPattern f.name f.width
        · rw [if_pos hp] at h ⊢
          exact ih _ _ _ h hv
        · rw [if_neg hp]
      · rw [if_neg hf] at h ⊢
        rw [if_neg hf] at hv
        obtain ⟨hv1, hv2⟩ := Bool.and_eq_true_iff.mp hv
        simp only [bytesEqStr, Bool.false_eq_true]
        rw [if_neg (by simp), if_pos hv1]
        exact ih _ _ _ h hv2

lemma decodeFields_success :
    ∀ (fields : List FieldSpec) (line : List Nat) (offset : Nat)
      (row : List (String × List Nat)),
      fillersMatchAux fields line offset = true →
      namedValidAux fields line offset = true →
      decodeFields fields line offset row =
        .matched ⟨namedAcc fields line offset row, line.drop (offset + sumWidths fields)⟩ := by
  intro fields
  induction fields with
  | nil =>
    intro line offset row _ _
    simp [decodeFields, namedAcc, sumWidths]
  | cons f rest ih =>
    intro line offset row h hv
    rw [fillersMatchAux] at h
    rw [namedValidAux] at hv
    rw [decodeFields, namedAcc, sumWidths, ← Nat.add_assoc]
    by_cases hw : f.name = FILLER_ANY
    · rw [if_pos hw] at h ⊢
      rw [if_pos (hw ▸ isFillerName_wildcard)] at hv ⊢
      exact ih _ _ _ h hv
    · rw [if_neg hw] at h ⊢
      by_cases hf : isFillerName f.name = true
      · rw [if_pos hf] at h hv ⊢
        rw [if_pos hf]
        obtain ⟨hp, h⟩ := Bool.and_eq_true_iff.mp h
        rw [if_pos (of_decide_eq_true hp)]
        exact ih _ _ _ h hv
      · rw [if_neg hf] at h hv ⊢
        rw [if_neg hf]
        obtain ⟨hv1, hv2⟩ := Bool.and_eq_true_iff.mp hv
        simp only [bytesEqStr, Bool.false_eq_true]
        rw [if_neg (by simp), if_pos hv1]
        exact ih _ _ _ h hv2

lemma dictInsert_fresh (row : List (String × List Nat)) (k : String) (v : List Nat)
    (h : ∀ p ∈ row, p.1 ≠ k) : dictInsert row k v = row ++ [(k, v)] := by
  rw [dictInsert, if_neg]
  intro hc
  obtain ⟨p, hp, he⟩ := List.any_eq_true.mp hc
  exact h p hp (of_decide_eq_true he)

lemma namedAcc_eq_append :
    ∀ (fields : List FieldSpec) (line : List Nat) (offset : Nat)
      (row : List (String × List Nat)),
      (namedNames fields).Nodup →
      (∀ p ∈ row, p.1 ∉ namedNames fields) →
      namedAcc fields line offset row = row ++ namedList fields line offset := by
  intro fields
  induction fields with
  | nil =>
    intro line offset row _ _
    simp [namedAcc, namedList]
  | cons f rest ih =>
    intro line offset row hd hdisj
    rw [namedAcc, namedList, namedNames] at *
    by_cases hf : isFillerName f.name = true
    · rw [if_pos hf] at hd hdisj ⊢
      rw [if_pos hf]
      exact ih _ _ _ hd hdisj
    · rw [if_neg hf] at hd hdisj ⊢
      rw [if_neg hf]
      obtain ⟨hnotin, hd⟩ := List.nodup_cons.mp hd
      rw [dictInsert_fresh _ _ _ (fun p hp => by
        have := hdisj p hp
        simp only [List.mem_cons, not_or] at this
        exact this.1)]
      rw [ih _ _ _ hd (fun p hp => by
        rcases List.mem_append.mp hp with hpl | hpr
        · have := hdisj p hpl
          simp only [List.mem_cons, not_or] at this
          exact this.2
        · simp only [List.mem_singleton] at hpr
          rw [hpr]
          exact hnotin)]
      simp

/-! ### Helper lemmas about the classifier -/

lemma classify_zero (i : Int) (line : List Nat) : classify 0 i line = .outOfFuel := rfl

lemma classify_succ (fuel : Nat) (i : Int) (line : List Nat) :
    classify (fuel + 1) i line =
      match layoutAt i with
      | Option.none => .fatalIndex
      | Option.some L =>
        match decode L line with
        | .fatalError => .fatalDecode
        | .noMatch => if 0 < i then classify fuel (i - 1) line else .fatalExhausted
        | .matched r =>
          if L.name = "commune" then
            match rowGet r "code_comm" with
            | Option.none => .fatalKey
            | Option.some v =>
              if v = [] then classify fuel (i - 1) line
              else .emit L.name r (if i < 4 then i + 1 else i)
          else .emit L.name r (if i < 4 then i + 1 else i) := rfl

lemma layoutAt_zero : layoutAt 0 = some enregistrement_final := rfl
lemma layoutAt_one : layoutAt 1 = some enregistrement_initial := rfl
lemma layoutAt_two : layoutAt 2 = some enregistrement_direction := rfl
lemma layoutAt_three : layoutAt 3 = some enregistrement_commune := rfl
lemma layoutAt_four : layoutAt 4 = some enregistrement_voie := rfl

lemma layoutAt_cases (i : Int) (L : Layout) (h : layoutAt i = some L) :
    (i = 0 ∧ L = enregistrement_final) ∨ (i = 1 ∧ L = enregistrement_initial) ∨
    (i = 2 ∧ L = enregistrement_direction) ∨ (i = 3 ∧ L = enregistrement_commune) ∨
    (i = 4 ∧ L = enregistrement_voie) := by
  rw [layoutAt] at h
  by_cases h0 : (0 : Int) ≤ i
  · rw [if_pos h0] at h
    have h5 : i.toNat < enregistrements.length := (List.get?_eq_some.mp h).1
    have hi : i = ((i.toNat : Nat) : Int) := by omega
    simp only [enregistrements, List.length_cons, List.length_nil] at h5
    match hm : i.toNat, h5 with
    | 0, _ =>
      rw [hm] at h hi
      exact Or.inl ⟨by omega, by simpa [enregistrements] using h.symm⟩
    | 1, _ =>
      rw [hm] at h hi
      exact Or.inr (Or.inl ⟨by omega, by simpa [enregistrements] using h.symm⟩)
    | 2, _ =>
      rw [hm] at h hi
      exact Or.inr (Or.inr (Or.inl ⟨by omega, by simpa [enregistrements] using h.symm⟩))
    | 3, _ =>
      rw [hm] at h hi
      exact Or.inr (Or.inr (Or.inr (Or.inl ⟨by omega, by simpa [enregistrements] using h.symm⟩)))
    | 4, _ =>
      rw [hm] at h hi
      exact Or.inr (Or.inr (Or.inr (Or.inr ⟨by omega, by simpa [enregistrements] using h.symm⟩)))
  · rw [if_neg h0] at h
    exact absurd h (by simp)

lemma kindIdx_nonneg (k : String) : 0 ≤ kindIdx k := by
  rw [kindIdx]
  split_ifs <;> omega

/-- Whenever the classifier loop accepts a line, the cursor afterwards is
the accepting layout's index plus one, capped at the last index 4. -/
lemma classify_emit_next :
    ∀ (fuel : Nat) (i : Int) (line : List Nat) (k : String) (r : Row) (n : Int),
      classify fuel i line = .emit k r n → n = min (kindIdx k + 1) 4 := by
  intro fuel
  induction fuel with
  | zero =>
    intro i line k r n h
    rw [classify_zero] at h
    exact absurd h (by simp)
  | succ m ih =>
    intro i line k r n h
    rw [classify_succ] at h
    split at h
    · exact absurd h (by simp)
    · rename_i L hL
      split at h
      · exact absurd h (by simp)
      · split at h
        · exact ih _ _ _ _ _ h
        · exact absurd h (by simp)
      · rename_i r0 hdec
        rcases layoutAt_cases i L hL with ⟨hi, hLe⟩ | ⟨hi, hLe⟩ | ⟨hi, hLe⟩ | ⟨hi, hLe⟩ |
          ⟨hi, hLe⟩ <;> subst hi <;> subst hLe
        · rw [if_neg (by decide : ¬enregistrement_final.name = "commune")] at h
          simp only [Outcome.emit.injEq] at h
          obtain ⟨hk, _, hn⟩ := h
          rw [← hk, ← hn]
          decide
        · rw [if_neg (by decide : ¬enregistrement_initial.name = "commune")] at h
          simp only [Outcome.emit.injEq] at h
          obtain ⟨hk, _, hn⟩ := h
          rw [← hk, ← hn]
          decide
        · rw [if_neg (by decide : ¬enregistrement_direction.name = "commune")] at h
          simp only [Outcome.emit.injEq] at h
          obtain ⟨hk, _, hn⟩ := h
          rw [← hk, ← hn]
          decide
        · rw [if_pos (by decide : enregistrement_commune.name = "commune")] at h
          split at h
          · exact absurd h (by simp)
          · split at h
            · exact ih _ _ _ _ _ h
            · simp only [Outcome.emit.injEq] at h
              obtain ⟨hk, _, hn⟩ := h
              rw [← hk, ← hn]
              decide
        · rw [if_neg (by decide : ¬enregistrement_voie.name = "commune")] at h
          simp only [Outcome.emit.injEq] at h
          obtain ⟨hk, _, hn⟩ := h
          rw [← hk, ← hn]
          decide

/-- The classifier loop never indexes `enregistrements` out of bounds when
started from a cursor in `0..4`. -/
lemma classify_no_fatalIndex :
    ∀ (fuel : Nat) (i : Int) (line : List Nat), 0 ≤ i → i ≤ 4 →
      classify fuel i line ≠ .fatalIndex := by
  intro fuel
  induction fuel with
  | zero =>
    intro i line _ _
    rw [classify_zero]
    simp
  | succ m ih =>
    intro i line h0 h4
    rw [classify_succ]
    split
    · rename_i hnone
      exfalso
      have hcase : i = 0 ∨ i = 1 ∨ i = 2 ∨ i = 3 ∨ i = 4 := by omega
      rcases hcase with h | h | h | h | h <;> subst h <;>
        simp [layoutAt_zero, layoutAt_one, layoutAt_two, layoutAt_three, layoutAt_four] at hnone
    · rename_i L hL
      split
      · simp
      · split
        · rename_i hi
          exact ih _ _ (by omega) (by omega)
        · simp
      · rename_i r0 hdec
        by_cases hc : L.name = "commune"
        · rw [if_pos hc]
          have hi3 : i = 3 := by
            rcases layoutAt_cases i L hL with ⟨hi, hLe⟩ | ⟨hi, hLe⟩ | ⟨hi, hLe⟩ | ⟨hi, hLe⟩ |
              ⟨hi, hLe⟩ <;> subst hLe <;> first | exact hi | exact absurd hc (by decide)
          split
          · simp
          · split
            · exact ih _ _ (by omega) (by omega)
            · simp
        · rw [if_neg hc]
          simp

/-- One loop iteration on a structural mismatch with `i > 0`: the cursor is
decremented and the loop retries (`assert i > 0; i -= 1`). -/
lemma classify_step_noMatch (fuel : Nat) (i : Int) (line : List Nat) (L : Layout)
    (hL : layoutAt i = some L) (hdec : decode L line = .noMatch) (hi : 0 < i) :
    classify (fuel + 1) i line = classify fuel (i - 1) line := by
  rw [classify_succ]
  split
  · rename_i hnone
    rw [hL] at hnone
    exact absurd hnone (by simp)
  · rename_i L2 hL2
    have hLL : L2 = L := by
      rw [hL] at hL2
      exact (Option.some.inj hL2).symm
    split
    · rename_i hdec2
      rw [hLL, hdec] at hdec2
      exact absurd hdec2 (by simp)
    · rw [if_pos hi]
    · rename_i r0 hdec2
      rw [hLL, hdec] at hdec2
      exact absurd hdec2 (by simp)

/-- One loop iteration on a structural mismatch at cursor 0: the
`assert i > 0` fails. -/
lemma classify_exhausted (fuel : Nat) (line : List Nat)
    (hdec : decode enregistrement_final line = .noMatch) :
    classify (fuel + 1) 0 line = .fatalExhausted := by
  rw [classify_succ]
  split
  · rename_i hnone
    rw [layoutAt_zero] at hnone
    exact absurd hnone (by simp)
  · rename_i L2 hL2
    have hLL : L2 = enregistrement_final := by
      rw [layoutAt_zero] at hL2
      exact (Option.some.inj hL2).symm
    split
    · rename_i hdec2
      rw [hLL, hdec] at hdec2
      exact absurd hdec2 (by simp)
    · rw [if_neg (by omega)]
    · rename_i r0 hdec2
      rw [hLL, hdec] at hdec2
      exact absurd hdec2 (by simp)

/-- One loop iteration accepting the line with a non-commune layout. -/
lemma classify_step_matched (fuel : Nat) (i : Int) (line : List Nat) (L : Layout) (r : Row)
    (hL : layoutAt i = some L) (hdec : decode L line = .matched r) (hc : ¬L.name = "commune") :
    classify (fuel + 1) i line = .emit L.name r (if i < 4 then i + 1 else i) := by
  rw [classify_succ]
  split
  · rename_i hnone
    rw [hL] at hnone
    exact absurd hnone (by simp)
  · rename_i L2 hL2
    have hLL : L2 = L := by
      rw [hL] at hL2
      exact (Option.some.inj hL2).symm
    split
    · rename_i hdec2
      rw [hLL, hdec] at hdec2
      exact absurd hdec2 (by simp)
    · rename_i hdec2
      rw [hLL, hdec] at hdec2
      exact absurd hdec2 (by simp)
    · rename_i r0 hdec2
      rw [hLL, hdec] at hdec2
      have hr : r = r0 := Decoded.matched.inj hdec2
      subst hr
      rw [hLL, if_neg hc]

/-- One loop iteration on a commune match whose extracted commune code is
empty: the extra disambiguation decrement (`i -= 1; continue`). -/
lemma classify_step_commune_empty (fuel : Nat) (i : Int) (line : List Nat) (L : Layout) (r : Row)
    (hL : layoutAt i = some L) (hdec : decode L line = .matched r) (hc : L.name = "commune")
    (he : rowGet r "code_comm" = some []) :
    classify (fuel + 1) i line = classify fuel (i - 1) line := by
  rw [classify_succ]
  split
  · rename_i hnone
    rw [hL] at hnone
    exact absurd hnone (by simp)
  · rename_i L2 hL2
    have hLL : L2 = L := by
      rw [hL] at hL2
      exact (Option.some.inj hL2).symm
    split
    · rename_i hdec2
      rw [hLL, hdec] at hdec2
      exact absurd hdec2 (by simp)
    · rename_i hdec2
      rw [hLL, hdec] at hdec2
      exact absurd hdec2 (by simp)
    · rename_i r0 hdec2
      rw [hLL, hdec] at hdec2
      have hr : r = r0 := Decoded.matched.inj hdec2
      subst hr
      rw [hLL, if_pos hc]
      split
      · rename_i hnone2
        rw [he] at hnone2
        exact absurd hnone2 (by simp)
      · rename_i v hv
        rw [he] at hv
        rw [if_pos (Option.some.inj hv).symm]

lemma namedList_map_fst :
    ∀ (fields : List FieldSpec) (line : List Nat) (offset : Nat),
      (namedList fields line offset).map Prod.fst = namedNames fields := by
  intro fields
  induction fields with
  | nil => intro line offset; simp [namedList, namedNames]
  | cons f rest ih =>
    intro line offset
    rw [namedList, namedNames]
    by_cases hf : isFillerName f.name = true
    · rw [if_pos hf, if_pos hf]
      exact ih _ _
    · rw [if_neg hf, if_neg hf]
      simp [ih]

/-- On a 149-byte line (one byte short of the trailer layout's declared
150 bytes) the trailer layout's final `'0' * 118` filler slot necessarily
deviates: its slice has only 117 bytes. -/
lemma short_final_deviates (line : List Nat) (hlen : line.length = 149) :
    fillerDeviates enregistrement_final line = true := by
  have hne : pySlice line 32 118 ≠ fillerPattern FILLER_0 118 := by
    intro he
    have h1 : (pySlice line 32 118).length = 117 := by
      simp [pySlice, hlen]
    rw [he, fillerPattern, List.length_replicate] at h1
    omega
  show fillerDeviatesAux
    [⟨10, FILLER_9⟩, ⟨1, FILLER⟩, ⟨21, "inconnu"⟩, ⟨118, FILLER_0⟩] line 0 = true
  rw [fillerDeviatesAux, if_neg (by decide), if_pos (by decide)]
  by_cases h1 : pySlice line 0 10 = fillerPattern FILLER_9 10
  · rw [if_pos h1, fillerDeviatesAux, if_neg (by decide), if_pos (by decide)]
    by_cases h2 : pySlice line (0 + 10) 1 = fillerPattern FILLER 1
    · rw [if_pos h2, fillerDeviatesAux, if_neg (by decide), if_neg (by decide)]
      rw [fillerDeviatesAux, if_neg (by decide), if_pos (by decide)]
      rw [if_neg (by simpa using hne)]
    · rw [if_neg h2]
  · rw [if_neg h1]

/-! ### Concrete input lines (line contents, i.e. terminator already
stripped) used in counterexamples and witnesses -/

/-- A well-formed 150-byte trailer line: ten `'9'`, one space, 21 digits
for the undocumented field, 118 `'0'`. -/
def trailerLine : List Nat :=
  List.replicate 10 57 ++ [32] ++ List.replicate 21 48 ++ List.replicate 118 48

/-- The row `decode` extracts from `trailerLine`. -/
def trailerRow : Row := ⟨[("inconnu", List.replicate 21 48)], []⟩

/-- An 88-byte line that decodes against the commune layout with an empty
(all-spaces) commune code, but whose byte 10 (the commune key-letter
slot) is `'X'`, so the regional-office layout — whose space filler covers
bytes 3-10 — rejects it:
`"ABC" + 7 spaces + "XV" + 29 spaces + "N" + spaces + digit blocks`. -/
def communeGhostLine : List Nat :=
  [65, 66] ++ [67] ++ List.replicate 3 32 ++ List.replicate 4 32 ++ [88] ++
  ([86] ++ List.replicate 29 32) ++ [32] ++ [78] ++ List.replicate 2 32 ++ [32] ++
  List.replicate 3 32 ++ [32] ++ List.replicate 2 32 ++ List.replicate 7 48 ++
  List.replicate 7 48 ++ List.replicate 7 48 ++ [32] ++ List.replicate 7 48 ++
  List.replicate 7 48

/-- The commune row `decode` extracts from `communeGhostLine`. -/
def communeGhostRow : Row :=
  ⟨[("code_dpt", [65, 66]), ("code_dir", [67]), ("code_comm", []), ("cle_rivoli", [88]),
    ("libelle_comm", [86]), ("type_comm", [78]), ("caract_rur", []), ("caract_popul", []),
    ("popul_reel", List.replicate 7 48), ("popul_apart", List.replicate 7 48),
    ("popul_fict", List.replicate 7 48), ("caract_annul", []),
    ("date_annul", List.replicate 7 48), ("date_crea", List.replicate 7 48)], []⟩

/-- Like `communeGhostLine` but with byte 10 a space, so that after the
disambiguation decrement the regional-office layout accepts the line. -/
def communeBlankLine : List Nat :=
  [65, 66] ++ [67] ++ List.replicate 3 32 ++ List.replicate 4 32 ++ [32] ++
  ([86] ++ List.replicate 29 32) ++ [32] ++ [78] ++ List.replicate 2 32 ++ [32] ++
  List.replicate 3 32 ++ [32] ++ List.replicate 2 32 ++ List.replicate 7 48 ++
  List.replicate 7 48 ++ List.replicate 7 48 ++ [32] ++ List.replicate 7 48 ++
  List.replicate 7 48

/-- The commune row `decode` extracts from `communeBlankLine`. -/
def communeBlankRow : Row :=
  ⟨[("code_dpt", [65, 66]), ("code_dir", [67]), ("code_comm", []), ("cle_rivoli", []),
    ("libelle_comm", [86]), ("type_comm", [78]), ("caract_rur", []), ("caract_popul", []),
    ("popul_reel", List.replicate 7 48), ("popul_apart", List.replicate 7 48),
    ("popul_fict", List.replicate 7 48), ("caract_annul", []),
    ("date_annul", List.replicate 7 48), ("date_crea", List.replicate 7 48)], []⟩

/-- The regional-office row `decode` extracts from `communeBlankLine`. -/
def directionBlankRow : Row :=
  ⟨[("code_dpt", [65, 66]), ("code_dir", [67]), ("libelle_dir", [86])],
   communeBlankLine.drop 41⟩

/-- A 150-byte line of `'X'` that no layout accepts. -/
def garbageLine : List Nat := List.replicate 150 88

/-- An 11-byte regional-office prefix `"ABC" + 8 spaces`: all fillers
match but the `libelle_dir` slice is empty. -/
def shortDirLine : List Nat := [65, 66, 67] ++ List.replicate 8 32

/-- A 40-byte line, one byte short of the regional-office layout's
declared 41 bytes, whose fillers all match: `"ABC" + 8 spaces + "R" + 28
spaces`. -/
def shortDir40 : List Nat := [65, 66, 67] ++ List.replicate 8 32 ++ [82] ++ List.replicate 28 32

/-- A full 41-byte regional-office line `"ABC" + 8 spaces + "RUE" + 27
spaces`. -/
def dirLine41 : List Nat :=
  [65, 66, 67] ++ List.replicate 8 32 ++ [82, 85, 69] ++ List.replicate 27 32

/-- A 150-byte line of `'0'`: the trailer layout's `'9' * 10` filler slot
deviates from it (and every named slice on it is valid text). -/
def zeroLine : List Nat := List.replicate 150 48

/-! ### Claims -/

/-- C1, counterexample: `communeGhostLine` decodes successfully against the
commune layout with an empty (after trimming) commune code, yet the
classifier started at the commune cursor does NOT emit it as the
regional-office kind — the regional-office layout rejects it (byte 10 is
not a space), backtracking continues through `initial` and `final`, and
the run ends in the fatal `assert i > 0` failure. -/
theorem C1_counterexample :
    decode enregistrement_commune communeGhostLine = .matched communeGhostRow ∧
    rowGet communeGhostRow "code_comm" = some [] ∧
    classify 5 3 communeGhostLine = .fatalExhausted := by
  decide

/-- C1, amended: if a line decodes against the commune layout with an
empty trimmed commune code, the classifier rejects the commune
interpretation and decrements the cursor by one extra step; PROVIDED the
regional-office layout then accepts the line, it is emitted as the
regional-office kind and the cursor afterwards is the regional-office
index + 1 = 3. -/
theorem C1_amended_thm (line : List Nat) (r rd : Row)
    (hcm : decode enregistrement_commune line = .matched r)
    (hcc : rowGet r "code_comm" = some [])
    (hdir : decode enregistrement_direction line = .matched rd) :
    classify 5 3 line = .emit "direction" rd 3 := by
  have s1 : classify 5 3 line = classify 4 2 line :=
    classify_step_commune_empty 4 3 line enregistrement_commune r layoutAt_three hcm rfl hcc
  have s2 : classify 4 2 line =
      .emit enregistrement_direction.name rd (if (2 : Int) < 4 then 2 + 1 else 2) :=
    classify_step_matched 3 2 line enregistrement_direction rd layoutAt_two hdir (by decide)
  rw [s1, s2]
  simp [enregistrement_direction]

/-- C1, witness: on `communeBlankLine` (commune match with empty commune
code, regional-office layout accepts) the classifier emits the
regional-office kind with cursor 3. -/
theorem C1_witness : classify 5 3 communeBlankLine = .emit "direction" directionBlankRow 3 :=
  C1_amended_thm communeBlankLine communeBlankRow directionBlankRow
    (by decide) (by decide) (by decide)

/-- C2: if any filler slot (`Space`/`Zero`/`Nine`/`Null`, i.e. any
underscore sentinel other than the wildcard) deviates from its literal
pattern — including a too-short slice — then `decode` never returns a
(partially populated) row; and provided no named slice is undecodable
(field decoding errors are the separately specified fatal path, which
takes precedence when an undecodable named field precedes the deviating
filler), `decode` returns `NoMatch`.  `decode` is pure, so no side
effects occur. -/
theorem C2_thm (L : Layout) (line : List Nat) (hdev : fillerDeviates L line = true) :
    (∀ r, decode L line ≠ .matched r) ∧
    (namedSlicesValid L line = true → decode L line = .noMatch) := by
  constructor
  · intro r
    exact decodeFields_not_matched L.fields line 0 [] r hdev
  · intro hv
    exact decodeFields_noMatch L.fields line 0 [] hdev hv

/-- C2, witness: the trailer layout's `'9' * 10` filler deviates on the
all-`'0'` line, and `decode` returns `NoMatch` on it. -/
theorem C2_witness : decode enregistrement_final zeroLine = .noMatch :=
  (C2_thm enregistrement_final zeroLine (by decide)).2 (by decide)

/-- C3: on a line whose filler slots all match exactly (and whose named
slices are all decodable — undecodable bytes are the separately
specified fatal path), `decode` returns a row whose named fields are
exactly the corresponding byte slices right-trimmed, in declaration
order, and whose field set is exactly the layout's named field names (no
more, no fewer); the bytes beyond the declared fields land in the
synthetic `trailing` slot.  The `Nodup` hypothesis holds for every
layout of the system. -/
theorem C3_thm (L : Layout) (line : List Nat)
    (hf : fillersMatch L line = true) (hn : namedSlicesValid L line = true)
    (hd : (namedNames L.fields).Nodup) :
    decode L line = .matched ⟨namedList L.fields line 0, line.drop (sumWidths L.fields)⟩ ∧
    (namedList L.fields line 0).map Prod.fst = namedNames L.fields := by
  constructor
  · have h := decodeFields_success L.fields line 0 [] hf hn
    rw [decode, h, namedAcc_eq_append L.fields line 0 [] hd (by simp)]
    simp
  · exact namedList_map_fst L.fields line 0

/-- C3, witness: the theorem instantiated at a full regional-office
line. -/
theorem C3_witness :
    decode enregistrement_direction dirLine41 =
      .matched ⟨namedList enregistrement_direction.fields dirLine41 0,
                dirLine41.drop (sumWidths enregistrement_direction.fields)⟩ ∧
    (namedList enregistrement_direction.fields dirLine41 0).map Prod.fst =
      namedNames enregistrement_direction.fields :=
  C3_thm enregistrement_direction dirLine41 (by decide) (by decide) (by decide)

/-- C4, counterexample: there is NO single width shared by the declared
width sums of all layouts (the regional-office layout sums to 41, the
trailer layout to 150). -/
theorem C4_counterexample :
    ¬∃ W : Nat, ∀ L ∈ enregistrements, sumWidths L.fields = W := by
  rintro ⟨W, h⟩
  have h1 := h enregistrement_direction (by simp [enregistrements])
  have h2 := h enregistrement_final (by simp [enregistrements])
  rw [show sumWidths enregistrement_direction.fields = 41 from rfl] at h1
  rw [show sumWidths enregistrement_final.fields = 150 from rfl] at h2
  omega

/-- C4, amended: the five layouts' declared width sums are 51 (initial),
41 (direction), 88 (commune), 142 (voie) and 150 (final); they do not
share one global width, but each is at most the 150-byte physical line
width of the data stream (the trailer layout covers it fully), the
decoder storing any bytes beyond a layout's declared fields in the
synthetic `trailing` slot. -/
theorem C4_amended_thm :
    sumWidths enregistrement_initial.fields = 51 ∧
    sumWidths enregistrement_direction.fields = 41 ∧
    sumWidths enregistrement_commune.fields = 88 ∧
    sumWidths enregistrement_voie.fields = 142 ∧
    sumWidths enregistrement_final.fields = 150 ∧
    enregistrements.all (fun L => sumWidths L.fields ≤ 150) = true := by
  decide

/-- C5, counterexample: the trailer layout sits at index 0 of
`enregistrements`, not at the last index; after the trailer line is
matched at cursor 0 the cursor advances to 1 — the state DOES advance
past the terminal kind. -/
theorem C5_counterexample :
    classify 5 0 trailerLine = .emit "final" trailerRow 1 ∧
    layoutAt 0 = some enregistrement_final ∧ enregistrement_final.name = "final" := by
  decide

/-- C5, amended: after every accepted line the cursor advances by one from
the accepting layout's index, saturating at the last index 4 (the street
layout) — `next = min (index + 1) 4`; the trailer layout is at index 0,
so after it matches the cursor advances to 1, and repeated trailer lines
keep re-matching the trailer layout via backtracking (the `initial`
layout at cursor 1 rejects them, the cursor falls back to 0), not via
saturation. -/
theorem C5_amended_thm :
    (∀ (fuel : Nat) (i : Int) (line : List Nat) (k : String) (r : Row) (n : Int),
       classify fuel i line = .emit k r n → n = min (kindIdx k + 1) 4) ∧
    (∀ (line : List Nat) (r : Row),
       decode enregistrement_final line = .matched r →
       decode enregistrement_initial line = .noMatch →
       classify 5 1 line = .emit "final" r 1) := by
  constructor
  · exact classify_emit_next
  · intro line r hfin hini
    have s1 : classify 5 1 line = classify 4 0 line :=
      classify_step_noMatch 4 1 line enregistrement_initial layoutAt_one hini (by omega)
    have s2 : classify 4 0 line =
        .emit enregistrement_final.name r (if (0 : Int) < 4 then 0 + 1 else 0) :=
      classify_step_matched 3 0 line enregistrement_final r layoutAt_zero hfin (by decide)
    rw [s1, s2]
    simp [enregistrement_final]

/-- C5, witness: a second trailer line arriving at cursor 1 re-matches the
trailer layout via backtracking and leaves the cursor at 1. -/
theorem C5_witness : classify 5 1 trailerLine = .emit "final" trailerRow 1 :=
  C5_amended_thm.2 trailerLine trailerRow (by decide) (by decide)

/-- C6, counterexample: on a garbage line rejected by every layout from
cursor 1 down to 0, processing halts with the bare `assert i > 0`
assertion failure — an outcome carrying no diagnostic at all (no line
number, no raw bytes). -/
theorem C6_counterexample : classify 5 1 garbageLine = .fatalExhausted := by
  decide

/-- C6, amended: each structural `NoMatch` decrements the cursor by one
and retries against the lower-index layout; if the cursor reaches 0 and
the layout there (the trailer layout) also rejects the line, processing
halts with a fatal assertion failure — which carries no diagnostic
naming the line number or the raw line bytes. -/
theorem C6_amended_thm :
    (∀ (fuel : Nat) (i : Int) (line : List Nat) (L : Layout),
       layoutAt i = some L → decode L line = .noMatch → 0 < i →
       classify (fuel + 1) i line = classify fuel (i - 1) line) ∧
    (∀ (fuel : Nat) (line : List Nat),
       decode enregistrement_final line = .noMatch →
       classify (fuel + 1) 0 line = .fatalExhausted) :=
  ⟨fun fuel i line L hL hdec hi => classify_step_noMatch fuel i line L hL hdec hi,
   fun fuel line hdec => classify_exhausted fuel line hdec⟩

/-- C6, witness: a line of 140 `'X'` is rejected by the trailer layout at
cursor 0 and the loop ends in the assertion failure. -/
theorem C6_witness : classify 1 0 (List.replicate 140 88) = .fatalExhausted :=
  C6_amended_thm.2 0 (List.replicate 140 88) (by decide)

/-- C7 (code bug): on the 11-byte line `"ABC" + 8 spaces`, the
`libelle_dir` named slice is empty, which per the claim (and per the
source's own dead guard `if value == '': assert False`) should be a
fatal error distinct from `NoMatch`; but because the guard compares a
`bytes` value with a `str` literal — which is always `False` in
Python 3 — `decode` silently accepts the line and returns a row with
`libelle_dir = ''`. -/
theorem C7_thm :
    decode enregistrement_direction shortDirLine =
      .matched ⟨[("code_dpt", [65, 66]), ("code_dir", [67]), ("libelle_dir", [])], []⟩ := by
  decide

/-- C8, counterexample: `shortDir40` is one byte shorter than the
regional-office layout's declared 41 bytes, yet `decode` silently
truncates and accepts it as a row (with the truncated `libelle_dir`
right-trimmed) instead of rejecting it. -/
theorem C8_counterexample :
    shortDir40.length = 40 ∧ sumWidths enregistrement_direction.fields = 41 ∧
    decode enregistrement_direction shortDir40 =
      .matched ⟨[("code_dpt", [65, 66]), ("code_dir", [67]), ("libelle_dir", [82])], []⟩ := by
  decide

/-- C8, amended: a line one byte shorter than a layout's declared width is
not always rejected — it is rejected (as `NoMatch`) when the shortfall
lands in a trailing filler slot, as in the trailer layout (first
conjunct), but a layout whose last declared field is named, such as the
regional-office layout, silently truncates and accepts it as a row
(second conjunct). -/
theorem C8_amended_thm :
    (∀ line : List Nat, line.length = 149 →
       ∀ r, decode enregistrement_final line ≠ .matched r) ∧
    decode enregistrement_direction shortDir40 =
      .matched ⟨[("code_dpt", [65, 66]), ("code_dir", [67]), ("libelle_dir", [82])], []⟩ := by
  constructor
  · intro line hlen r
    exact decodeFields_not_matched enregistrement_final.fields line 0 [] r
      (short_final_deviates line hlen)
  · decide

/-- C8, witness: the 149-byte all-`'0'` line is not accepted by the
trailer layout. -/
theorem C8_witness :
    decode enregistrement_final (List.replicate 149 48) ≠ .matched ⟨[], []⟩ :=
  C8_amended_thm.1 (List.replicate 149 48) (by simp) ⟨[], []⟩

/-- C9: a raw line whose last two bytes are not `b'\r\n'` makes processing
halt with the fatal input-format assertion before any classification is
attempted; otherwise the two terminator bytes are stripped and the
remaining content is handed to the classifier loop. -/
theorem C9_thm (i : Int) (line : List Nat) :
    (line.drop (line.length - 2) ≠ CRLF → processLine i line = .fatalTerm) ∧
    (line.drop (line.length - 2) = CRLF →
      processLine i line = classify 5 i (line.take (line.length - 2))) := by
  constructor
  · intro h
    rw [processLine, if_neg h]
  · intro h
    rw [processLine, if_pos h]

set_option maxRecDepth 8000 in
/-- C9, witness: the two-byte line `"99"` lacks the terminator and is
fatal; a trailer line with terminator is passed, stripped, to the
classifier. -/
theorem C9_witness :
    processLine 1 [57, 57] = .fatalTerm ∧
    processLine 1 (trailerLine ++ CRLF) =
      classify 5 1 ((trailerLine ++ CRLF).take ((trailerLine ++ CRLF).length - 2)) :=
  ⟨(C9_thm 1 [57, 57]).1 (by decide),
   (C9_thm 1 (trailerLine ++ CRLF)).2 (by decide)⟩

/-- C10: started anywhere in `0..4` (and in particular at the initial
cursor 1), the classifier loop never indexes the layout list out of
bounds — the only decrements are the assert-guarded backtracking
decrement and the commune-disambiguation decrement at index 3 — and
whenever it accepts a line the resulting cursor is again within
`0..4`, so the invariant carries over to every subsequent line. -/
theorem C10_thm (fuel : Nat) (i : Int) (line : List Nat) (h0 : 0 ≤ i) (h4 : i ≤ 4) :
    classify fuel i line ≠ .fatalIndex ∧
    ∀ k r n, classify fuel i line = .emit k r n → 0 ≤ n ∧ n ≤ 4 := by
  refine ⟨classify_no_fatalIndex fuel i line h0 h4, ?_⟩
  intro k r n h
  have hn := classify_emit_next fuel i line k r n h
  have hk := kindIdx_nonneg k
  constructor
  · rw [hn]
    exact le_min (by omega) (by omega)
  · rw [hn]
    exact min_le_right _ _

/-- C10, witness: the invariant instantiated at the initial cursor on a
concrete line. -/
theorem C10_witness : classify 5 1 (List.replicate 150 65) ≠ .fatalIndex :=
  (C10_thm 5 1 (List.replicate 150 65) (by decide) (by decide)).1

end Fantoir
